import Mathlib

/-!
Shallow embedding of the go-tw launcher (github.com/Piszmog/go-tw).

The Go sources embedded here:
  * `fs.go` — `Write`, `Exists`, `GetCurrentVersion`, `DeleteOtherVersions`,
    `PrefixTailwind`, the error sentinels;
  * `client.go` — `Download`, `downloadAttempt`, `GetLatestVersion`,
    `GetName` / `GetNameWithReader`, `isMusl`, `maxRetries`, `retryDelay`;
  * `main.go` — `execute`'s version-resolution section, `IsSupported`,
    `GetArgs`.

Modelling conventions:
  * The file system is an association list from path strings to file
    contents; `os.Create` truncates/creates, `os.Remove` deletes the entry.
    I/O primitives that the claims never exercise on their failure paths
    (`os.Create` succeeding inside the cache, reads from the source stream)
    are modelled as total.
  * Byte counts are modelled as character counts of the content string.
  * `filepath` functions are modelled for the Unix separator `/`, matching
    the environment the repository's tests run on.
  * HTTP traffic is an oracle value per request: either a transport failure
    (`http.Client.Do` returning an error) or a response carrying a status
    code and a body.
  * Go errors are an inductive type; `fmt.Errorf("...: %w", err)` wrapping
    is the `wrapped` constructor and `errors.Is` is `errorsIs`.
-/

/-- The Go error values that appear in the embedded code: the exported
sentinels of `fs.go` and `client.go` (`ErrHTTP`, `ErrDownloadFailed`,
`ErrInvalidPath`, `ErrIncompleteDownload`, `ErrFileNotExists`,
`ErrNotInstalled`, `ErrMissingVersionArg`), a JSON-decode failure, a
transport failure from `http.Client.Do`, and contextual wrapping via
`fmt.Errorf`. `errDownloadFailed` and `errIncompleteDownload` carry what
the Go code chains into them with `%w` / formats into the message. -/
inductive GoError where
  | errHTTP
  | errDownloadFailed (last : GoError)
  | errInvalidPath
  | errIncompleteDownload (expected written : Int)
  | errFileNotExists
  | errNotInstalled
  | errMissingVersionArg
  | errJSONDecode
  | errTransport
  | wrapped (context : String) (cause : GoError)
  deriving Repr, DecidableEq

/-- Go `errors.Is`: the target is the error itself or is reachable through
the `%w` wrap chain (`errDownloadFailed` and `wrapped` both wrap). -/
def errorsIs : GoError → GoError → Bool
  | .errDownloadFailed last, target =>
      GoError.errDownloadFailed last == target || errorsIs last target
  | .wrapped context cause, target =>
      GoError.wrapped context cause == target || errorsIs cause target
  | e, target => e == target

/-- Go `strings.HasPrefix s pre` (byte-wise prefix test, modelled on the
character list of the string). -/
def hasPrefixStr (s pre : String) : Bool :=
  List.isPrefixOf pre.data s.data

/-- Go `strings.HasSuffix s suf`. -/
def hasSuffixStr (s suf : String) : Bool :=
  List.isSuffixOf suf.data s.data

/-- Go `strings.TrimSuffix s suf`: removes one trailing occurrence of
`suf` when present, otherwise returns `s` unchanged. -/
def trimSuffixStr (s suf : String) : String :=
  if hasSuffixStr s suf then
    String.mk (s.data.take (s.data.length - suf.data.length))
  else s

/-- Go `strings.TrimPrefix s pre`. -/
def trimPrefixStr (s pre : String) : String :=
  if hasPrefixStr s pre then String.mk (s.data.drop pre.data.length) else s

/-- Go `strings.CutPrefix s pre`: the trimmed remainder plus whether the
prefix was present. -/
def cutPrefixStr (s pre : String) : String × Bool :=
  if hasPrefixStr s pre then (String.mk (s.data.drop pre.data.length), true)
  else (s, false)

/-- Go `strings.Contains s sub`. -/
def containsStr (s sub : String) : Bool :=
  s.data.tails.any (fun t => List.isPrefixOf sub.data t)

/-- Splits a character list on the `/` separator; used by `clean`.
`splitOnSlash "a/b".data = ["a".data, "b".data]`, and empty segments are
kept (the caller drops them), matching how `filepath.Clean` walks bytes. -/
def splitOnSlash : List Char → List (List Char)
  | [] => [[]]
  | c :: rest =>
      if c = '/' then [] :: splitOnSlash rest
      else
        match splitOnSlash rest with
        | r :: rs => (c :: r) :: rs
        | [] => [[c]]

/-- The component-stack loop of Go `path/filepath.Clean` (Unix rules):
empty and `.` components are dropped; `..` pops a previous component,
is dropped at the root of a rooted path, and is kept at the head of a
relative path; other components are pushed. -/
def cleanStack (rooted : Bool) : List (List Char) → List (List Char) → List (List Char)
  | [], acc => acc.reverse
  | c :: rest, acc =>
      if c = [] ∨ c = ['.'] then cleanStack rooted rest acc
      else if c = ['.', '.'] then
        match acc with
        | [] =>
            if rooted then cleanStack rooted rest []
            else cleanStack rooted rest [['.', '.']]
        | top :: accTail =>
            if top = ['.', '.'] then cleanStack rooted rest (c :: top :: accTail)
            else cleanStack rooted rest accTail
      else cleanStack rooted rest (c :: acc)

/-- Go `path/filepath.Clean` for the Unix separator: shortest lexically
equivalent path (`.` for empty, root preserved, `..` resolved against
preceding components). -/
def clean (path : String) : String :=
  if path.data = [] then "."
  else
    let rooted := path.data.head? = some '/'
    let comps := cleanStack rooted (splitOnSlash path.data) []
    if rooted then String.mk ('/' :: List.intercalate ['/'] comps)
    else if comps = [] then "." else String.mk (List.intercalate ['/'] comps)

deriving instance DecidableEq for Except

/-- The modelled disk: an association list from absolute path strings to
file contents. -/
abbrev FS := List (String × String)

/-- `os.Create` followed by writing `content`: replaces the entry at
`path` or appends a new one. -/
def fsSet : FS → String → String → FS
  | [], path, content => [(path, content)]
  | (q, d) :: rest, path, content =>
      if q = path then (path, content) :: rest
      else (q, d) :: fsSet rest path content

/-- `os.Remove` on a file (the not-exists error is ignored by every
caller in the embedded code, so removal of an absent path is a no-op). -/
def fsRemove : FS → String → FS
  | [], _ => []
  | (q, d) :: rest, path =>
      if q = path then fsRemove rest path else (q, d) :: fsRemove rest path

/-- Reads the content stored at a path, `none` when no file exists. -/
def fsLookup : FS → String → Option String
  | [], _ => none
  | (q, d) :: rest, path => if q = path then some d else fsLookup rest path

/-- `fs.PrefixTailwind`. -/
def PrefixTailwind : String := "tailwindcss-"

/-- `fs.Write(logger, reader, path, downloadDir, expectedSize)`: cleans
both paths, rejects a destination that is not nested inside the download
directory (`ErrInvalidPath`, before any file is created), otherwise
creates the file at the cleaned path, streams the whole source into it,
and fails with `ErrIncompleteDownload` when a positive `expectedSize`
differs from the bytes written. Returns the error outcome and the
resulting disk. -/
def Write (content : String) (path downloadDir : String) (expectedSize : Int)
    (fs : FS) : Except GoError Unit × FS :=
  let cleanPath := clean path
  let cleanDir := clean downloadDir
  if hasPrefixStr cleanPath (cleanDir ++ "/") = false then
    (.error .errInvalidPath, fs)
  else
    let fs' := fsSet fs cleanPath content
    let written : Int := (content.length : Int)
    if expectedSize > 0 ∧ written ≠ expectedSize then
      (.error (.errIncompleteDownload expectedSize written), fs')
    else (.ok (), fs')

/-- `client.maxRetries`. -/
def maxRetries : Nat := 3

/-- `client.retryDelay`, in seconds (`2 * time.Second`). -/
def retryDelay : Nat := 2

/-- Outcome of one HTTP request issued by `downloadAttempt`: either
`http.Client.Do` fails (transport error, cancellation, timeout) or a
response arrives with a status code, a raw body, and the declared
`Content-Length`. -/
inductive HTTPResult where
  | failure
  | response (statusCode : Nat) (body : String) (contentLength : Int)
  deriving Repr, DecidableEq

/-- `client.downloadAttempt(ctx, url, path, downloadDir)`: a `Do` error is
returned as-is; a non-200 status becomes `ErrHTTP`; otherwise the body is
handed to `fs.Write` with the response's `Content-Length` as the expected
size. Returns `none` on success, the attempt's error otherwise, together
with the resulting disk. -/
def downloadAttempt (r : HTTPResult) (path downloadDir : String) (fs : FS) :
    Option GoError × FS :=
  match r with
  | .failure => (some .errTransport, fs)
  | .response statusCode body contentLength =>
      if statusCode ≠ 200 then (some .errHTTP, fs)
      else
        match Write body path downloadDir contentLength fs with
        | (.ok (), fs') => (none, fs')
        | (.error e, fs') => (some e, fs')

/-- What a run of `client.Download` did: the returned error outcome, the
final disk, how many attempts were issued, and the sequence of delays
slept (one entry per `time.Sleep(retryDelay)`). -/
structure DownloadOutcome where
  result : Except GoError Unit
  fs : FS
  attempts : Nat
  sleeps : List Nat
  deriving Repr, DecidableEq

/-- The retry loop of `client.Download`: `remaining` counts the attempts
left out of `maxRetries`, `made` the attempts already issued (the Go
`attempt` counter is `made + 1`). Before every attempt after the first it
sleeps `retryDelay`; after a failed attempt it records the error as
`lastErr` and best-effort removes the file at the raw destination `path`;
when the attempts are exhausted it returns `ErrDownloadFailed` wrapping
the last error. The per-attempt server behaviour is the oracle
`responses` indexed by the 1-based attempt number (it abstracts the fixed
artifact URL built from the version and the platform name). -/
def downloadLoop (responses : Nat → HTTPResult) (path downloadDir : String) :
    Nat → Nat → List Nat → GoError → FS → DownloadOutcome
  | 0, made, sleeps, lastErr, fs =>
      ⟨.error (.errDownloadFailed lastErr), fs, made, sleeps⟩
  | remaining + 1, made, sleeps, lastErr, fs =>
      let sleeps' := if made > 0 then sleeps ++ [retryDelay] else sleeps
      match downloadAttempt (responses (made + 1)) path downloadDir fs with
      | (none, fs') => ⟨.ok (), fs', made + 1, sleeps'⟩
      | (some e, fs') =>
          downloadLoop responses path downloadDir remaining (made + 1) sleeps' e
            (fsRemove fs' path)

/-- `client.Download(ctx, os, arch, version, path, downloadDir)`. The
initial `lastErr` argument mirrors Go's `var lastErr error` and is dead:
with `maxRetries = 3 > 0` the exhausted branch is only reached after an
attempt has overwritten it. -/
def Download (responses : Nat → HTTPResult) (path downloadDir : String)
    (fs : FS) : DownloadOutcome :=
  downloadLoop responses path downloadDir maxRetries 0 [] .errHTTP fs

/-- The JSON body of a latest-release response, as seen by
`json.Decoder.Decode` into `release`: either not valid JSON, or a valid
object whose `tag_name` field is present with some value or absent
(decoding to the zero value `""`). -/
inductive JSONBody where
  | invalid
  | valid (tagName : Option String)
  deriving Repr, DecidableEq

/-- Outcome of the one request `client.GetLatestVersion` issues. -/
inductive LatestResult where
  | failure
  | response (statusCode : Nat) (body : JSONBody)
  deriving Repr, DecidableEq

/-- `client.GetLatestVersion(ctx)`: a `Do` failure is collapsed to
`ErrHTTP`; otherwise the body is JSON-decoded — the status code is never
inspected — and the `TagName` field is returned (the `""` zero value when
the field is absent). Request construction from the hardcoded URL cannot
fail and is not modelled. -/
def GetLatestVersion : LatestResult → Except GoError String
  | .failure => .error .errHTTP
  | .response _ body =>
      match body with
      | .invalid => .error .errJSONDecode
      | .valid tagName => .ok (tagName.getD "")

/-- The version-resolution section of `main.execute` (main.go lines
58-77): a requested version other than `latest` is used as-is; for
`latest`, a successful lookup wins; a lookup error satisfying
`errors.Is(err, client.ErrHTTP)` falls back to
`fs.GetCurrentVersion(downloadDir)` (its outcome is the `currentResult`
argument), any other lookup error is fatal. The boolean records whether
`GetCurrentVersion` was consulted. -/
def executeVersionResolution (version : String)
    (latestResult : Except GoError String)
    (currentResult : Except GoError String) : Except GoError String × Bool :=
  if version = "latest" then
    match latestResult with
    | .error verErr =>
        if errorsIs verErr .errHTTP then
          match currentResult with
          | .error currErr =>
              (.error (.wrapped
                "failed to check for latest version of tailwind and no version is installed"
                currErr), true)
          | .ok currVer => (.ok currVer, true)
        else
          (.error (.wrapped "failed to determine latest version" verErr), false)
    | .ok ver => (.ok ver, false)
  else (.ok version, false)

/-- One entry of `os.ReadDir`: a name and whether it is a directory. -/
structure Entry where
  name : String
  isDir : Bool
  deriving Repr, DecidableEq

/-- `fs.DeleteOtherVersions(logger, downloadDir, version)`: walks the
directory entries in order, skips subdirectories, and for a regular file
whose name starts with `PrefixTailwind` removes it unless the name with
any `.exe` extension stripped ends in `"-" ++ version`. Returns the
directory contents left on disk (`os.Remove` failures, which abort the Go
loop early, are outside the claims and not modelled). -/
def DeleteOtherVersions (version : String) : List Entry → List Entry
  | [] => []
  | e :: rest =>
      if e.isDir then e :: DeleteOtherVersions version rest
      else if hasPrefixStr e.name PrefixTailwind then
        let fileName := trimSuffixStr e.name ".exe"
        if hasSuffixStr fileName ("-" ++ version) = false then
          DeleteOtherVersions version rest
        else e :: DeleteOtherVersions version rest
      else e :: DeleteOtherVersions version rest

/-- Modelled from the spec: the eviction step as §4.2 words it — "removes
every file whose name has the fixed prefix but whose version suffix
(after stripping any platform executable extension) does not equal
`keepVersion`". Used only to compare the spec's wording against
`DeleteOtherVersions`. -/
def deleteOtherVersionsSpec (version : String) (entries : List Entry) :
    List Entry :=
  entries.filter (fun e =>
    e.isDir = true ∨ hasPrefixStr e.name PrefixTailwind = false ∨
      trimPrefixStr (trimSuffixStr e.name ".exe") PrefixTailwind = version)

/-- `fs.GetCurrentVersion(path)`: first regular entry carrying the
prefix, with the prefix and any `.exe` extension stripped; `ErrNotInstalled`
when no such entry exists. -/
def GetCurrentVersion : List Entry → Except GoError String
  | [] => .error .errNotInstalled
  | e :: rest =>
      if e.isDir then GetCurrentVersion rest
      else
        match cutPrefixStr e.name PrefixTailwind with
        | (s, true) => .ok (trimSuffixStr s ".exe")
        | (_, false) => GetCurrentVersion rest

/-- The `FileReader` capability of `client.go`: the readable content of
`/proc/self/maps` (or `none` when unreadable) and the `FileExists`
probe. -/
structure FileReader where
  maps : Option String
  fileExists : String → Bool

/-- `client.muslLinkers`. -/
def muslLinkers : List String :=
  ["/lib/ld-musl-x86_64.so.1", "/lib/ld-musl-aarch64.so.1",
   "/lib/ld-musl-armhf.so.1"]

/-- `client.isMusl(reader)`: strategy 1 looks for the substring `musl` in
`/proc/self/maps` when readable; strategy 2 probes the well-known musl
dynamic-linker paths. -/
def isMusl (reader : FileReader) : Bool :=
  (match reader.maps with
   | some data => containsStr data "musl"
   | none => false) ||
  muslLinkers.any reader.fileExists

/-- The pure core of `client.GetNameWithReader`, with the musl probe's
boolean outcome as an explicit argument: `darwin` renders as `macos`,
`amd64` as `x64`, Linux gets `-musl` exactly when musl was detected, and
Windows gets a trailing `.exe`. -/
def nameFor (os arch : String) (musl : Bool) : String :=
  let muslPart := if os == "linux" && musl then "-musl" else ""
  let osName := if os == "darwin" then "macos" else os
  let archName := if arch == "amd64" then "x64" else arch
  let exePart := if os == "windows" then ".exe" else ""
  "tailwindcss-" ++ osName ++ "-" ++ archName ++ muslPart ++ exePart

/-- `client.GetNameWithReader(os, arch, reader)`. -/
def GetNameWithReader (os arch : String) (reader : FileReader) : String :=
  nameFor os arch (isMusl reader)

/-- `main.IsSupported(os, arch)`: the Go switch accepting exactly
windows/darwin/linux on amd64 or arm64. -/
def IsSupported (os arch : String) : Bool :=
  (os == "windows" || os == "darwin" || os == "linux") &&
    (arch == "amd64" || arch == "arm64")

/-- A platform key as §3 of the spec describes it: OS, architecture, and
the libc flavor, the latter only meaningful on Linux. -/
structure PlatformKey where
  os : String
  arch : String
  musl : Bool
  deriving Repr, DecidableEq

/-- A key is supported when `main.IsSupported` accepts the OS/arch pair;
the musl flag is normalized to `false` off Linux, where the libc flavor
is not part of the key's identity. -/
def PlatformKey.supported (k : PlatformKey) : Prop :=
  IsSupported k.os k.arch = true ∧ (k.os ≠ "linux" → k.musl = false)

/-- The artifact name a platform key maps to, for use as the cache file's
identity. -/
def PlatformKey.artifactName (k : PlatformKey) : String :=
  nameFor k.os k.arch k.musl

/-- The eight supported platform keys. -/
def supportedKeys : List PlatformKey :=
  [⟨"linux", "amd64", false⟩, ⟨"linux", "amd64", true⟩,
   ⟨"linux", "arm64", false⟩, ⟨"linux", "arm64", true⟩,
   ⟨"darwin", "amd64", false⟩, ⟨"darwin", "arm64", false⟩,
   ⟨"windows", "amd64", false⟩, ⟨"windows", "arm64", false⟩]

/-- The loop of `main.GetArgs`: every `-version` token consumes the
following token as the version (an absent follower is
`ErrMissingVersionArg`); every other token is appended to the
pass-through list. `acc` holds the pass-through arguments in reverse. -/
def getArgsLoop : List String → String → List String →
    Except GoError (String × List String)
  | [], version, acc => .ok (version, acc.reverse)
  | a :: rest, version, acc =>
      if a = "-version" then
        match rest with
        | [] => .error .errMissingVersionArg
        | v :: rest' => getArgsLoop rest' v acc
      else getArgsLoop rest version (a :: acc)

/-- `main.GetArgs(args)`: the version defaults to `latest`. -/
def GetArgs (args : List String) : Except GoError (String × List String) :=
  getArgsLoop args "latest" []

/-- An argument list in which every `-version` flag occurrence is
followed by a value decomposes into chunks: a plain pass-through token or
a `-version v` flag-value pair. -/
inductive Chunk where
  | plain (s : String)
  | vflag (v : String)
  deriving Repr, DecidableEq

/-- The tokens a chunk contributes to the argument list. -/
def Chunk.flat : Chunk → List String
  | .plain s => [s]
  | .vflag v => ["-version", v]

/-- Flattens a chunk decomposition back into the argument list. -/
def flattenChunks : List Chunk → List String
  | [] => []
  | c :: cs => c.flat ++ flattenChunks cs

/-- The plain pass-through tokens of a chunk list, in order. -/
def plainArgs : List Chunk → List String
  | [] => []
  | .plain s :: cs => s :: plainArgs cs
  | .vflag _ :: cs => plainArgs cs

/-- The value of the last `-version` occurrence, defaulting to `dflt`. -/
def lastVersionValue (dflt : String) : List Chunk → String
  | [] => dflt
  | .plain _ :: cs => lastVersionValue dflt cs
  | .vflag v :: cs => lastVersionValue v cs

/-- How many `-version` flag occurrences a chunk list holds. -/
def countVflags : List Chunk → Nat
  | [] => 0
  | .plain _ :: cs => countVflags cs
  | .vflag _ :: cs => 1 + countVflags cs

example : clean "" = "." := by decide
example : clean "/" = "/" := by decide
example : clean "a//b/./c/" = "a/b/c" := by decide
example : clean "a/../../b" = "../b" := by decide
example : clean "/cache/go-tw/../../../etc/passwd" = "/etc/passwd" := by decide
example : clean "/tmp/malicious.bin" = "/tmp/malicious.bin" := by decide
example : hasPrefixStr "/cache/go-tw/file" "/cache/go-tw/" = true := by decide
example : hasPrefixStr "/cache/go-twx/file" "/cache/go-tw/" = false := by decide
example :
    Write "data" "/tmp/malicious.bin" "/cache/go-tw" 4 [] =
      (.error .errInvalidPath, []) := by decide
example :
    (Write "short" "/cache/test.bin" "/cache" 1000 []).1 =
      .error (.errIncompleteDownload 1000 5) := by decide
example :
    (Write "any size" "/cache/test.bin" "/cache" 0 []).1 = .ok () := by decide
example :
    Download (fun _ => .response 500 "" 0) "/cache/f" "/cache" [] =
      ⟨.error (.errDownloadFailed .errHTTP), [], 3, [2, 2]⟩ := by decide
example :
    Download (fun _ => .response 200 "data" 4) "/cache/f" "/cache" [] =
      ⟨.ok (), [("/cache/f", "data")], 1, []⟩ := by decide
example :
    (Download (fun _ => .response 200 "data" 4) "/out/f" "/cache"
      [("/out/f", "old")]).fs = [] := by decide
example :
    GetLatestVersion (.response 500 (.valid (some "v4.0.0"))) = .ok "v4.0.0" := by
  decide
example :
    GetLatestVersion (.response 200 (.valid none)) = .ok "" := by decide
example :
    GetArgs ["a", "-version", "v1", "b", "-version", "v2", "c"] =
      .ok ("v2", ["a", "b", "c"]) := by decide
example : GetArgs ["a", "-version"] = .error .errMissingVersionArg := by decide
example :
    DeleteOtherVersions "v4.0.0"
      [⟨"tailwindcss-v3.0.0", false⟩, ⟨"tailwindcss-v4.0.0", false⟩,
       ⟨"tailwindcss-v5.0.0", false⟩, ⟨"other-file.txt", false⟩,
       ⟨"tailwindcss-v3.0.0", true⟩] =
      [⟨"tailwindcss-v4.0.0", false⟩, ⟨"other-file.txt", false⟩,
       ⟨"tailwindcss-v3.0.0", true⟩] := by decide
example :
    DeleteOtherVersions "v4.0.0" [⟨"tailwindcss-v3.0.0.exe", false⟩,
      ⟨"tailwindcss-v4.0.0.exe", false⟩] =
      [⟨"tailwindcss-v4.0.0.exe", false⟩] := by decide
example :
    DeleteOtherVersions "v4.0.0" [⟨"tailwindcss-extra-v4.0.0", false⟩] =
      [⟨"tailwindcss-extra-v4.0.0", false⟩] := by decide
example :
    deleteOtherVersionsSpec "v4.0.0" [⟨"tailwindcss-extra-v4.0.0", false⟩] =
      [] := by decide
example : GetCurrentVersion [⟨"tailwindcss-v4.0.0.exe", false⟩] = .ok "v4.0.0" := by
  decide
example :
    nameFor "linux" "amd64" true = "tailwindcss-linux-x64-musl" := by decide
example :
    nameFor "windows" "arm64" false = "tailwindcss-windows-arm64.exe" := by decide
example :
    executeVersionResolution "latest" (.error .errHTTP) (.ok "v3.0.0") =
      (.ok "v3.0.0", true) := by decide
example :
    executeVersionResolution "latest" (.error .errJSONDecode) (.ok "v3.0.0") =
      (.error (.wrapped "failed to determine latest version" .errJSONDecode),
        false) := by decide
example :
    isMusl ⟨some "7f00 /lib/ld-musl-x86_64.so.1", fun _ => false⟩ = true := by
  decide

/-- Helper: `DeleteOtherVersions` is the filter keeping directories,
non-prefixed files, and prefixed files whose `.exe`-stripped name ends in
`"-" ++ version`. -/
theorem deleteOtherVersions_eq_filter (version : String) (entries : List Entry) :
    DeleteOtherVersions version entries =
      entries.filter (fun e =>
        e.isDir || !hasPrefixStr e.name PrefixTailwind ||
          hasSuffixStr (trimSuffixStr e.name ".exe") ("-" ++ version)) := by
  induction entries with
  | nil => rfl
  | cons e rest ih =>
      by_cases hd : e.isDir
      · simp [DeleteOtherVersions, List.filter, hd, ih]
      · by_cases hp : hasPrefixStr e.name PrefixTailwind
        · by_cases hs : hasSuffixStr (trimSuffixStr e.name ".exe") ("-" ++ version)
          · simp [DeleteOtherVersions, List.filter, hd, hp, hs, ih]
          · simp [DeleteOtherVersions, List.filter, hd, hp, hs, ih]
        · simp [DeleteOtherVersions, List.filter, hd, hp, ih]

/-- C2: for every destination path whose cleaned form is not lexically
nested inside the cleaned download directory (prefix test against the
directory plus separator), `Write` returns `ErrInvalidPath` and the disk
is unchanged — no file is created anywhere. -/
theorem write_rejects_escaping_path (content path downloadDir : String)
    (expectedSize : Int) (fs : FS)
    (h : hasPrefixStr (clean path) (clean downloadDir ++ "/") = false) :
    Write content path downloadDir expectedSize fs =
      (.error .errInvalidPath, fs) := by
  simp [Write, h]

/-- Witness for C2 at the `..`-traversal input of the repository's test:
the destination normalizes to `/etc/passwd`, outside the cache, and the
pre-existing disk is untouched. -/
theorem write_rejects_escaping_path_witness :
    Write "data" "/cache/go-tw/../../../etc/passwd" "/cache/go-tw" 4
      [("/cache/go-tw/tailwindcss-v4.0.0", "bin")] =
      (.error .errInvalidPath, [("/cache/go-tw/tailwindcss-v4.0.0", "bin")]) :=
  write_rejects_escaping_path "data" "/cache/go-tw/../../../etc/passwd"
    "/cache/go-tw" 4 [("/cache/go-tw/tailwindcss-v4.0.0", "bin")] (by decide)

/-- C3: for a readable source written to an in-cache destination, a
positive expected byte count differing from the bytes written fails with
`ErrIncompleteDownload`, and a non-positive expected count always
succeeds. -/
theorem write_size_validation (content path downloadDir : String) (fs : FS)
    (expectedSize : Int)
    (h : hasPrefixStr (clean path) (clean downloadDir ++ "/") = true) :
    (0 < expectedSize → expectedSize ≠ (content.length : Int) →
      (Write content path downloadDir expectedSize fs).1 =
        .error (.errIncompleteDownload expectedSize (content.length : Int)))
    ∧ (expectedSize ≤ 0 →
      (Write content path downloadDir expectedSize fs).1 = .ok ()) := by
  constructor
  · intro h1 h2
    simp only [Write, h]
    rw [if_neg (by simp), if_pos ⟨h1, fun hh => h2 hh.symm⟩]
  · intro h1
    simp only [Write, h]
    rw [if_neg (by simp), if_neg (fun hc => absurd hc.1 (by omega))]

/-- Witness for C3: expecting 1000 bytes while writing the 5-byte body
`short` fails with the incomplete-download error, and expecting 0 bytes
succeeds for the same write. -/
theorem write_size_validation_witness :
    (Write "short" "/cache/test.bin" "/cache" 1000 []).1 =
        .error (.errIncompleteDownload 1000 5) ∧
      (Write "short" "/cache/test.bin" "/cache" 0 []).1 = .ok () :=
  ⟨(write_size_validation "short" "/cache/test.bin" "/cache" [] 1000
      (by decide)).1 (by decide) (by decide),
   (write_size_validation "short" "/cache/test.bin" "/cache" [] 0
      (by decide)).2 (by decide)⟩

/-- C1 counterexample: a response with non-success status 500 whose JSON
body carries `tag_name v4.0.0` makes `GetLatestVersion` return the tag
with no error — not the `ErrHTTP` condition the claim requires for every
non-success status. -/
theorem getLatestVersion_ignores_status_counterexample :
    GetLatestVersion (.response 500 (.valid (some "v4.0.0"))) = .ok "v4.0.0" ∧
      GetLatestVersion (.response 500 (.valid (some "v4.0.0"))) ≠
        .error .errHTTP := by
  decide

/-- C1 amended: `GetLatestVersion` never inspects the status code — any
response whose JSON body carries a tag returns that tag verbatim, a
transport failure returns `ErrHTTP`, and no received response (whatever
its status) ever yields `ErrHTTP`. -/
theorem getLatestVersion_status_independent :
    (∀ (statusCode : Nat) (tag : String),
        GetLatestVersion (.response statusCode (.valid (some tag))) = .ok tag)
    ∧ GetLatestVersion .failure = .error .errHTTP
    ∧ ∀ (statusCode : Nat) (body : JSONBody),
        GetLatestVersion (.response statusCode body) ≠ .error .errHTTP := by
  refine ⟨fun _ _ => rfl, rfl, fun s body => ?_⟩
  cases body with
  | invalid => simp [GetLatestVersion]
  | valid tagName => simp [GetLatestVersion]

/-- Witness for C1's amended statement at status 500 and tag `v4.0.0`. -/
theorem getLatestVersion_status_independent_witness :
    GetLatestVersion (.response 500 (.valid (some "v4.0.0"))) = .ok "v4.0.0" ∧
      GetLatestVersion (.response 500 .invalid) ≠ .error .errHTTP :=
  ⟨getLatestVersion_status_independent.1 500 "v4.0.0",
   getLatestVersion_status_independent.2.2 500 .invalid⟩

/-- C4 counterexample: `tailwindcss-extra-v4.0.0` has the prefix and its
version suffix `extra-v4.0.0` does not equal the kept version `v4.0.0`,
so the claim requires it removed; the code keeps it, because the name
still ends in `-v4.0.0`. -/
theorem deleteOtherVersions_suffix_counterexample :
    DeleteOtherVersions "v4.0.0" [⟨"tailwindcss-extra-v4.0.0", false⟩] =
        [⟨"tailwindcss-extra-v4.0.0", false⟩] ∧
      deleteOtherVersionsSpec "v4.0.0" [⟨"tailwindcss-extra-v4.0.0", false⟩] =
        [] ∧
      trimPrefixStr (trimSuffixStr "tailwindcss-extra-v4.0.0" ".exe")
          PrefixTailwind ≠ "v4.0.0" := by
  decide

/-- C4 amended: `DeleteOtherVersions` removes exactly those regular-file
entries whose name starts with the fixed prefix and, after stripping any
`.exe` extension, does not end in `"-" ++ keepVersion` (rather than:
whose version suffix does not equal `keepVersion`); directories and
non-prefixed files always survive, and on the resident files
`tailwindcss-v3.0.0`, `tailwindcss-v4.0.0`, `tailwindcss-v5.0.0` with
keep version `v4.0.0` only `tailwindcss-v4.0.0` remains. -/
theorem deleteOtherVersions_removes_exactly_nonmatching :
    (∀ (version : String) (entries : List Entry) (e : Entry),
        e ∈ DeleteOtherVersions version entries ↔
          e ∈ entries ∧ (e.isDir = true ∨
            hasPrefixStr e.name PrefixTailwind = false ∨
            hasSuffixStr (trimSuffixStr e.name ".exe") ("-" ++ version) = true))
    ∧ DeleteOtherVersions "v4.0.0"
        [⟨"tailwindcss-v3.0.0", false⟩, ⟨"tailwindcss-v4.0.0", false⟩,
         ⟨"tailwindcss-v5.0.0", false⟩] = [⟨"tailwindcss-v4.0.0", false⟩] := by
  refine ⟨fun version entries e => ?_, by decide⟩
  rw [deleteOtherVersions_eq_filter, List.mem_filter]
  simp [Bool.or_eq_true, or_assoc]

/-- C10: a 200 response whose body is valid JSON without a `tag_name`
field resolves to the empty string with no error, and the launcher's
resolution step accepts it as the concrete version (never consulting the
cache fallback and never checking non-emptiness). -/
theorem getLatestVersion_missing_tag_empty :
    ∀ currentResult : Except GoError String,
      GetLatestVersion (.response 200 (.valid none)) = .ok "" ∧
        executeVersionResolution "latest"
            (GetLatestVersion (.response 200 (.valid none))) currentResult =
          (.ok "", false) := by
  intro currentResult
  exact ⟨rfl, by simp [GetLatestVersion, executeVersionResolution]⟩

/-- Helper: after removing a path, no file is found at it. -/
theorem fsLookup_fsRemove_self (fs : FS) (p : String) :
    fsLookup (fsRemove fs p) p = none := by
  induction fs with
  | nil => rfl
  | cons hd rest ih =>
      obtain ⟨q, d⟩ := hd
      by_cases hq : q = p
      · simp [fsRemove, hq, ih]
      · simp [fsRemove, fsLookup, hq, ih]

/-- Helper: removing the same path twice equals removing it once. -/
theorem fsRemove_fsRemove (fs : FS) (p : String) :
    fsRemove (fsRemove fs p) p = fsRemove fs p := by
  induction fs with
  | nil => rfl
  | cons hd rest ih =>
      obtain ⟨q, d⟩ := hd
      by_cases hq : q = p
      · simp [fsRemove, hq, ih]
      · simp [fsRemove, hq, ih]

/-- C5: against a remote that answers every attempt with a non-success
status, `Download` issues exactly `maxRetries = 3` attempts, sleeps the
fixed `retryDelay = 2` before each attempt after the first, and returns
`ErrDownloadFailed` wrapping the last attempt's error (`ErrHTTP`). -/
theorem download_retries_exhausted (responses : Nat → HTTPResult)
    (path downloadDir : String) (fs : FS)
    (h : ∀ i, ∃ statusCode body contentLength,
        responses i = .response statusCode body contentLength ∧
          statusCode ≠ 200) :
    (Download responses path downloadDir fs).result =
        .error (.errDownloadFailed .errHTTP) ∧
      (Download responses path downloadDir fs).attempts = maxRetries ∧
      (Download responses path downloadDir fs).sleeps =
        [retryDelay, retryDelay] := by
  have att : ∀ (i : Nat) (fs0 : FS),
      downloadAttempt (responses i) path downloadDir fs0 =
        (some .errHTTP, fs0) := by
    intro i fs0
    obtain ⟨s, b, cl, hr, hs⟩ := h i
    simp [downloadAttempt, hr, hs]
  have main : Download responses path downloadDir fs =
      ⟨.error (.errDownloadFailed .errHTTP),
        fsRemove (fsRemove (fsRemove fs path) path) path, 3,
        [retryDelay, retryDelay]⟩ := by
    show downloadLoop responses path downloadDir (0 + 1 + 1 + 1) 0 []
        .errHTTP fs = _
    simp [downloadLoop, att]
  rw [main]
  exact ⟨rfl, rfl, rfl⟩

/-- Witness for C5 at a server answering 500 on every attempt. -/
theorem download_retries_exhausted_witness :
    (Download (fun _ => .response 500 "" 0) "/cache/go-tw/f" "/cache/go-tw"
          []).result = .error (.errDownloadFailed .errHTTP) ∧
      (Download (fun _ => .response 500 "" 0) "/cache/go-tw/f" "/cache/go-tw"
          []).attempts = maxRetries ∧
      (Download (fun _ => .response 500 "" 0) "/cache/go-tw/f" "/cache/go-tw"
          []).sleeps = [retryDelay, retryDelay] :=
  download_retries_exhausted (fun _ => .response 500 "" 0) "/cache/go-tw/f"
    "/cache/go-tw" [] (fun _ => ⟨500, "", 0, rfl, by decide⟩)

/-- Helper: whenever the loop (entered with at least one attempt left)
returns an error, the last action of its last failed attempt was the
cleanup removal of `path`, so no file remains at the destination. -/
theorem downloadLoop_error_lookup (responses : Nat → HTTPResult)
    (path downloadDir : String) :
    ∀ (remaining made : Nat) (sleeps : List Nat) (lastErr : GoError) (fs : FS),
      1 ≤ remaining → ∀ e : GoError,
        (downloadLoop responses path downloadDir remaining made sleeps lastErr
            fs).result = .error e →
        fsLookup (downloadLoop responses path downloadDir remaining made sleeps
            lastErr fs).fs path = none := by
  intro remaining
  induction remaining with
  | zero => intro made sleeps lastErr fs hrem; omega
  | succ n ih =>
      intro made sleeps lastErr fs _ e hres
      rcases hA : downloadAttempt (responses (made + 1)) path downloadDir fs
        with ⟨opt, fs'⟩
      rcases opt with _ | er
      · simp [downloadLoop, hA] at hres
      · simp only [downloadLoop, hA] at hres ⊢
        cases n with
        | zero =>
            simp only [downloadLoop]
            exact fsLookup_fsRemove_self _ _
        | succ m =>
            exact ih (made + 1) _ er (fsRemove fs' path) (by omega) e hres

/-- C9: after every failed attempt `Download` removes the file at the raw
destination path, whatever the failure reason — so whenever it returns an
error, no file remains at the destination; in particular, when every
attempt fails `fs.Write`'s path validation because the destination lies
outside the cache directory, the cleanup still targets that outside-cache
path and deletes any pre-existing file there (the final disk is the
initial one with the destination entry removed). -/
theorem download_cleanup_targets_destination (responses : Nat → HTTPResult)
    (path downloadDir : String) (fs : FS) :
    (∀ e : GoError, (Download responses path downloadDir fs).result = .error e →
        fsLookup (Download responses path downloadDir fs).fs path = none)
    ∧ ((∀ i, ∃ body contentLength,
          responses i = .response 200 body contentLength) →
        hasPrefixStr (clean path) (clean downloadDir ++ "/") = false →
        (Download responses path downloadDir fs).result =
            .error (.errDownloadFailed .errInvalidPath) ∧
          (Download responses path downloadDir fs).fs = fsRemove fs path) := by
  constructor
  · intro e hres
    exact downloadLoop_error_lookup responses path downloadDir maxRetries 0 []
      .errHTTP fs (by decide) e hres
  · intro h1 h2
    have att : ∀ (i : Nat) (fs0 : FS),
        downloadAttempt (responses i) path downloadDir fs0 =
          (some .errInvalidPath, fs0) := by
      intro i fs0
      obtain ⟨b, cl, hr⟩ := h1 i
      simp [downloadAttempt, hr, Write, h2]
    have main : Download responses path downloadDir fs =
        ⟨.error (.errDownloadFailed .errInvalidPath),
          fsRemove (fsRemove (fsRemove fs path) path) path, 3,
          [retryDelay, retryDelay]⟩ := by
      show downloadLoop responses path downloadDir (0 + 1 + 1 + 1) 0 []
          .errHTTP fs = _
      simp [downloadLoop, att]
    rw [main, fsRemove_fsRemove, fsRemove_fsRemove]
    exact ⟨rfl, rfl⟩

/-- Witness for C9: a pre-existing file at the outside-cache destination
`/outside/file` is deleted by the failed download's cleanup. -/
theorem download_cleanup_targets_destination_witness :
    (Download (fun _ => .response 200 "data" 4) "/outside/file" "/cache/go-tw"
          [("/outside/file", "precious")]).result =
        .error (.errDownloadFailed .errInvalidPath) ∧
      (Download (fun _ => .response 200 "data" 4) "/outside/file" "/cache/go-tw"
          [("/outside/file", "precious")]).fs =
        fsRemove [("/outside/file", "precious")] "/outside/file" :=
  (download_cleanup_targets_destination (fun _ => .response 200 "data" 4)
      "/outside/file" "/cache/go-tw" [("/outside/file", "precious")]).2
    (fun _ => ⟨"data", 4, rfl⟩) (by decide)

/-- C6: with the requested version `latest` and a failed lookup, the
launcher falls back to the cache's current version exactly when the
lookup error satisfies `errors.Is(err, ErrHTTP)` — succeeding when the
cache has a version and failing only when that fallback also fails — and
fails immediately, never consulting the cache, on any other error kind. -/
theorem execute_fallback_policy (verErr : GoError)
    (currentResult : Except GoError String) :
    (errorsIs verErr .errHTTP = true →
      (executeVersionResolution "latest" (.error verErr) currentResult).2 =
          true ∧
        (∀ currVer, currentResult = .ok currVer →
          executeVersionResolution "latest" (.error verErr) currentResult =
            (.ok currVer, true)) ∧
        (∀ currErr, currentResult = .error currErr →
          executeVersionResolution "latest" (.error verErr) currentResult =
            (.error (.wrapped
              "failed to check for latest version of tailwind and no version is installed"
              currErr), true)))
    ∧ (errorsIs verErr .errHTTP = false →
        executeVersionResolution "latest" (.error verErr) currentResult =
          (.error (.wrapped "failed to determine latest version" verErr),
            false)) := by
  constructor
  · intro his
    refine ⟨?_, ?_, ?_⟩
    · cases currentResult <;> simp [executeVersionResolution, his]
    · intro currVer hcv
      subst hcv
      simp [executeVersionResolution, his]
    · intro currErr hce
      subst hce
      simp [executeVersionResolution, his]
  · intro hisnot
    cases currentResult <;> simp [executeVersionResolution, hisnot]

/-- Witness for C6: an `ErrHTTP` lookup failure falls back to the cached
`v3.4.1`; a JSON-decode failure is fatal without touching the cache. -/
theorem execute_fallback_policy_witness :
    executeVersionResolution "latest" (.error .errHTTP) (.ok "v3.4.1") =
        (.ok "v3.4.1", true) ∧
      executeVersionResolution "latest" (.error .errJSONDecode)
          (.ok "v3.4.1") =
        (.error (.wrapped "failed to determine latest version" .errJSONDecode),
          false) :=
  ⟨((execute_fallback_policy .errHTTP (.ok "v3.4.1")).1 (by decide)).2.1
      "v3.4.1" rfl,
   (execute_fallback_policy .errJSONDecode (.ok "v3.4.1")).2 (by decide)⟩

/-- Helper: every supported platform key is one of the eight enumerated
keys. -/
theorem supported_mem (k : PlatformKey) (h : k.supported) :
    k ∈ supportedKeys := by
  obtain ⟨os, arch, musl⟩ := k
  obtain ⟨hsup, hmusl⟩ := h
  simp only [IsSupported, Bool.and_eq_true, Bool.or_eq_true, beq_iff_eq]
    at hsup
  obtain ⟨ho, ha⟩ := hsup
  have hm : os ≠ "linux" → musl = false := hmusl
  rcases ho with (rfl | rfl) | rfl <;> rcases ha with rfl | rfl <;>
    first
      | (rw [hm (by decide)]; decide)
      | (cases musl <;> decide)

/-- C7: `GetNameWithReader` factors through the musl probe's boolean;
on the supported platform keys (libc flavor significant on Linux only)
the artifact-name map is injective; and the rendering rules hold: darwin
renders as macos, amd64 as x64, windows names end in `.exe`, and Linux
names carry `-musl` exactly when musl was detected. -/
theorem artifact_names_distinct :
    (∀ (os arch : String) (reader : FileReader),
        GetNameWithReader os arch reader = nameFor os arch (isMusl reader))
    ∧ (∀ k₁ k₂ : PlatformKey, k₁.supported → k₂.supported → k₁ ≠ k₂ →
        k₁.artifactName ≠ k₂.artifactName)
    ∧ (∀ musl, nameFor "darwin" "amd64" musl = "tailwindcss-macos-x64"
        ∧ nameFor "darwin" "arm64" musl = "tailwindcss-macos-arm64")
    ∧ (∀ musl, nameFor "windows" "amd64" musl = "tailwindcss-windows-x64.exe"
        ∧ nameFor "windows" "arm64" musl = "tailwindcss-windows-arm64.exe")
    ∧ (nameFor "linux" "amd64" true = "tailwindcss-linux-x64-musl"
        ∧ nameFor "linux" "amd64" false = "tailwindcss-linux-x64"
        ∧ nameFor "linux" "arm64" true = "tailwindcss-linux-arm64-musl"
        ∧ nameFor "linux" "arm64" false = "tailwindcss-linux-arm64") := by
  refine ⟨fun _ _ _ => rfl, ?_, by decide, by decide, by decide⟩
  intro k₁ k₂ h₁ h₂ hne
  have m₁ := supported_mem k₁ h₁
  have m₂ := supported_mem k₂ h₂
  have H : ∀ a ∈ supportedKeys, ∀ b ∈ supportedKeys,
      a ≠ b → PlatformKey.artifactName a ≠ PlatformKey.artifactName b := by
    decide
  exact H k₁ m₁ k₂ m₂ hne

/-- Witness for C7: the two Linux amd64 keys differing only in libc
flavor map to different artifact names. -/
theorem artifact_names_distinct_witness :
    PlatformKey.artifactName ⟨"linux", "amd64", true⟩ ≠
      PlatformKey.artifactName ⟨"linux", "amd64", false⟩ :=
  artifact_names_distinct.2.1 ⟨"linux", "amd64", true⟩
    ⟨"linux", "amd64", false⟩ ⟨by decide, fun h => absurd rfl h⟩
    ⟨by decide, fun h => absurd rfl h⟩ (by decide)

/-- Helper: running the `GetArgs` loop over a chunked argument list (no
plain token equal to `-version`) yields the last flag value and the plain
tokens in order appended to the accumulator. -/
theorem getArgsLoop_chunks (cs : List Chunk) :
    ∀ (version : String) (acc : List String),
      (∀ s, Chunk.plain s ∈ cs → s ≠ "-version") →
      getArgsLoop (flattenChunks cs) version acc =
        .ok (lastVersionValue version cs, acc.reverse ++ plainArgs cs) := by
  induction cs with
  | nil =>
      intro version acc h
      simp [flattenChunks, getArgsLoop, plainArgs, lastVersionValue]
  | cons c rest ih =>
      intro version acc h
      cases c with
      | plain s =>
          have hs : s ≠ "-version" := h s (by simp)
          have step : getArgsLoop (s :: flattenChunks rest) version acc =
              getArgsLoop (flattenChunks rest) version (s :: acc) := by
            rw [getArgsLoop.eq_def]
            simp [hs]
          simp only [flattenChunks, Chunk.flat, List.cons_append,
            List.nil_append, lastVersionValue, plainArgs]
          rw [step, ih version (s :: acc) (fun t ht => h t (by simp [ht]))]
          simp
      | vflag v =>
          have step :
              getArgsLoop ("-version" :: v :: flattenChunks rest) version acc =
                getArgsLoop (flattenChunks rest) v acc := by
            rw [getArgsLoop.eq_def]
            simp
          simp only [flattenChunks, Chunk.flat, List.cons_append,
            List.nil_append, lastVersionValue, plainArgs]
          rw [step]
          exact ih v acc (fun t ht => h t (by simp [ht]))

/-- C8: on an argument list in which every `-version` flag is followed by
a value and the flag occurs more than once (no pass-through token spells
`-version`), `GetArgs` returns the value after the last occurrence as the
version, drops every flag-value pair, and preserves the order of the
remaining arguments. -/
theorem getArgs_last_version_wins (cs : List Chunk)
    (hplain : ∀ s, Chunk.plain s ∈ cs → s ≠ "-version")
    (hcount : 2 ≤ countVflags cs) :
    GetArgs (flattenChunks cs) =
      .ok (lastVersionValue "latest" cs, plainArgs cs) := by
  have h := getArgsLoop_chunks cs "latest" [] hplain
  simpa [GetArgs] using h

/-- Witness for C8 on `a -version v1 b -version v2 c`. -/
theorem getArgs_last_version_wins_witness :
    GetArgs ["a", "-version", "v1", "b", "-version", "v2", "c"] =
      .ok ("v2", ["a", "b", "c"]) :=
  getArgs_last_version_wins
    [.plain "a", .vflag "v1", .plain "b", .vflag "v2", .plain "c"]
    (by
      intro s hs
      simp at hs
      rcases hs with rfl | rfl | rfl <;> decide)
    (by decide)
